import Mathlib

/-!
Verification of the `rrd-rust` wrapper library against its design
specification.

The development shallowly embeds the pure, decision-making parts of the
wrapper: the `Data`/`Rows`/`Row`/`Cell` result views (`src/data.rs`), the
`Archive` constructor (`src/ops/create.rs`), the update-batch token builder
(`src/ops/update.rs`), the foreign string arrays (`src/util.rs`), the color
literal grammar (`src/ops/graph/mod.rs`) and the `graph` precondition
checks.  Machine integers are modelled by `Nat`/`Int`; a Rust panic is
modelled by `Option.none`; fallible functions return `Except`.  Instants
(`Timestamp`, a `chrono` UTC instant in the crate root) are modelled by
their epoch-second count, the only view of them the embedded code uses.
-/

namespace Rrd

/-- Modelled from the spec: `Timestamp` (the crate-root alias for a `chrono`
UTC instant, whose defining module is absent from this snapshot) is "an
explicit instant"; it is represented here by its epoch-seconds integer,
which is what `.timestamp()` yields and what update tokens render. -/
abbrev Timestamp := Int

/-- A `std::time::Duration` step, in whole seconds (the granularity the
wrapper passes to the engine). -/
abbrev Step := Nat

/-- The error enum of `src/error.rs`.  Payload strings are kept; the
`NulError` payload (byte position) is dropped as the code never reads it. -/
inductive RrdError : Type where
  | NulError : RrdError
  | PathEncodingError : RrdError
  | LibRrdError : String → RrdError
  | Internal : String → RrdError
  | InvalidArgument : String → RrdError
deriving DecidableEq, Repr

/-- `error::InvalidArgument`, the construction-time rejection carrying a
static message. -/
structure InvalidArgument : Type where
  msg : String
deriving DecidableEq, Repr

/-- The nul character, which `CString::new` rejects inside a Rust string. -/
def nulChar : Char := Char.ofNat 0

/-- `CString::new`: succeeds iff the string has no interior nul byte
(Lean strings are valid UTF-8, so nul appears only as the scalar 0). -/
def cstring_new (s : String) : Except RrdError String :=
  if s.data.contains nulChar then .error .NulError else .ok s

/-- `Data<T>` from `src/data.rs`: start/end instants, step, ordered source
names, the flat row-major sample buffer, and the derived row count.  The
sample type is a parameter `α`: the Rust code is generic in the buffer
holder and never inspects sample values, only moves them. -/
structure Data (α : Type) : Type where
  start : Timestamp
  end_ : Timestamp
  step : Step
  names : List String
  data : List α
  row_count : Nat
deriving DecidableEq, Repr

/-- `Data::new`: `assert_eq!(data.len() % names.len(), 0)` then
`row_count = data.len() / names.len()`.  `none` models the panic: the `%`
operator panics when `names` is empty (remainder by zero), and the
assertion fails when the remainder is nonzero. -/
def Data.new {α : Type} (start end_ : Timestamp) (step : Step)
    (names : List String) (data : List α) : Option (Data α) :=
  if names.length = 0 then none
  else if data.length % names.length = 0 then
    some { start := start, end_ := end_, step := step, names := names,
           data := data, row_count := data.length / names.length }
  else none

/-- A `Row`: a borrowed view into `Data` at a computed sample offset, with
its precomputed timestamp. -/
structure Row (α : Type) : Type where
  data : Data α
  data_offset : Nat
  timestamp : Timestamp

/-- `Row::new`: offset `names.len() * row_index`, timestamp
`start + step * row_index`. -/
def Row.new {α : Type} (d : Data α) (row_index : Nat) : Row α :=
  { data := d, data_offset := d.names.length * row_index,
    timestamp := d.start + (d.step * row_index : Nat) }

/-- `Row::as_slice`: `&data[offset .. offset + names.len()]`.  (The Rust
index panics when the range exceeds the buffer; every row produced by
`rows()` is in range, which the `C1` theorem exploits.) -/
def Row.as_slice {α : Type} (r : Row α) : List α :=
  (r.data.data.drop r.data_offset).take r.data.names.length

/-- `Cell`: one sample paired with its source name. -/
structure Cell (α : Type) : Type where
  name : String
  value : α
deriving DecidableEq, Repr

/-- `Row::iter_cells`: zip the source names with the row slice. -/
def Row.iter_cells {α : Type} (r : Row α) : List (Cell α) :=
  (r.data.names.zip r.as_slice).map (fun p => { name := p.1, value := p.2 })

/-- `Rows::len` (`RowsIter::size_hint` agrees): the owning data's row
count. -/
def Data.rows_len {α : Type} (d : Data α) : Nat := d.row_count

/-- The sequence yielded by `RowsIter` (`rows().iter()`): `Row::new data i`
for each `i` below `max_index = row_count`.  The iterator is restartable
(each `iter()` builds a fresh `RowsIter`), so a list captures it. -/
def Data.rows {α : Type} (d : Data α) : List (Row α) :=
  (List.range d.row_count).map (Row.new d)

/-- C1: for a `Data` built from `N = names.length > 0` sources and a buffer
of `R * N` samples, `rows()` yields exactly `R` rows; row `i` has timestamp
`start + step * i` and slice `buf[i*N .. i*N+N]`; and its `iter_cells()`
yields exactly `N` cells pairing the `j`-th sample of the row with the
`j`-th source name. -/
theorem data_rows_and_cells_spec {α : Type} (start end_ : Timestamp)
    (step : Step) (names : List String) (buf : List α) (R : Nat) (d : Data α)
    (hN : 0 < names.length) (hbuf : buf.length = R * names.length)
    (hd : Data.new start end_ step names buf = some d) :
    d.rows.length = R ∧
    ∀ i, i < R →
      ∃ r, d.rows[i]? = some r ∧
        r.timestamp = start + (step * i : Nat) ∧
        r.as_slice = (buf.drop (i * names.length)).take names.length ∧
        r.iter_cells.length = names.length ∧
        ∀ j, j < names.length →
          ∃ c, r.iter_cells[j]? = some c ∧
            names[j]? = some c.name ∧
            buf[i * names.length + j]? = some c.value := by
  have hN0 : ¬ names.length = 0 := by omega
  have hmod : buf.length % names.length = 0 := by
    rw [hbuf]; exact Nat.mul_mod_left R names.length
  rw [Data.new, if_neg hN0, if_pos hmod, Option.some.injEq] at hd
  have hrc : buf.length / names.length = R := by
    rw [hbuf]; exact Nat.mul_div_cancel R hN
  have hdn : d.names = names := by rw [← hd]
  have hdd : d.data = buf := by rw [← hd]
  have hds : d.start = start := by rw [← hd]
  have hdt : d.step = step := by rw [← hd]
  have hdr : d.row_count = R := by rw [← hd]; exact hrc
  refine ⟨by simp [Data.rows, hdr], ?_⟩
  intro i hi
  have hrow : names.length * i + names.length ≤ buf.length := by
    have h1 : names.length * (i + 1) ≤ names.length * R :=
      Nat.mul_le_mul_left names.length hi
    calc names.length * i + names.length = names.length * (i + 1) := by ring
    _ ≤ names.length * R := h1
    _ = buf.length := by rw [hbuf, Nat.mul_comm]
  refine ⟨Row.new d i, ?_, ?_, ?_, ?_, ?_⟩
  · simp only [Data.rows, hdr, List.getElem?_map, List.getElem?_range hi,
      Option.map_some']
  · simp only [Row.new, hds, hdt]
  · simp only [Row.new, Row.as_slice, hdn, hdd]
    rw [Nat.mul_comm i names.length]
  · simp only [Row.iter_cells, Row.new, Row.as_slice, hdn, hdd,
      List.length_map, List.length_zip, List.length_take, List.length_drop]
    omega
  · intro j hj
    have hb : names.length * i + j < buf.length := by omega
    refine ⟨{ name := names[j], value := buf[names.length * i + j] }, ?_, ?_, ?_⟩
    · simp only [Row.iter_cells, Row.new, Row.as_slice, hdn, hdd,
        List.getElem?_map]
      have hzip : ((names.zip ((buf.drop (names.length * i)).take
          names.length))[j]?) =
          some (names[j], buf[names.length * i + j]) := by
        rw [List.getElem?_zip_eq_some]
        refine ⟨by rw [List.getElem?_eq_getElem hj], ?_⟩
        rw [List.getElem?_take, if_pos hj, List.getElem?_drop,
          List.getElem?_eq_getElem hb]
      rw [hzip, Option.map_some']
    · rw [List.getElem?_eq_getElem hj]
    · rw [Nat.mul_comm i names.length, List.getElem?_eq_getElem hb]

/-- Witness for C1: two sources, six samples, hence three rows. -/
theorem data_rows_and_cells_spec_witness :
    ({ start := 10, end_ := 40, step := 5, names := ["a", "b"],
       data := [0, 1, 2, 3, 4, 5], row_count := 3 } : Data Nat).rows.length
      = 3 ∧
    ∀ i : Nat, i < 3 →
      ∃ r, ({ start := 10, end_ := 40, step := 5, names := ["a", "b"],
              data := [0, 1, 2, 3, 4, 5], row_count := 3 } : Data Nat).rows[i]?
          = some r ∧
        r.timestamp = 10 + 5 * (i : Int) ∧
        r.as_slice = (([0, 1, 2, 3, 4, 5] : List Nat).drop (i * 2)).take 2 ∧
        r.iter_cells.length = 2 ∧
        ∀ j, j < 2 →
          ∃ c, r.iter_cells[j]? = some c ∧
            (["a", "b"] : List String)[j]? = some c.name ∧
            ([0, 1, 2, 3, 4, 5] : List Nat)[i * 2 + j]? = some c.value := by
  have h := data_rows_and_cells_spec 10 40 5 ["a", "b"] [0, 1, 2, 3, 4, 5] 3
    { start := 10, end_ := 40, step := 5, names := ["a", "b"],
      data := [0, 1, 2, 3, 4, 5], row_count := 3 }
    (by decide) (by decide) (by decide)
  refine ⟨h.1, ?_⟩
  intro i hi
  obtain ⟨r, h1, h2, h3, h4, h5⟩ := h.2 i hi
  refine ⟨r, h1, ?_, h3, h4, h5⟩
  rw [h2]; push_cast; ring

/-- C2: `Data::new` panics (modelled as `none`) exactly when the buffer
length is not a multiple of the (nonempty) source-name count, and on
success stores `row_count = buffer.len() / source_names.len()`. -/
theorem data_new_asserts_divisibility {α : Type} (start end_ : Timestamp)
    (step : Step) (names : List String) (buf : List α)
    (hne : names.length ≠ 0) :
    (buf.length % names.length ≠ 0 →
       Data.new start end_ step names buf = none) ∧
    (∀ d, Data.new start end_ step names buf = some d →
       buf.length % names.length = 0 ∧
       d.row_count = buf.length / names.length) := by
  constructor
  · intro hmod
    rw [Data.new, if_neg hne, if_neg hmod]
  · intro d hd
    rw [Data.new, if_neg hne] at hd
    by_cases hmod : buf.length % names.length = 0
    · rw [if_pos hmod, Option.some.injEq] at hd
      exact ⟨hmod, by rw [← hd]⟩
    · rw [if_neg hmod] at hd
      exact absurd hd (by simp)

/-- Witness for C2: two sources against a three-sample buffer is a fatal
assertion; the divisibility test `3 % 2 ≠ 0` fires. -/
theorem data_new_asserts_divisibility_witness :
    ((3 : Nat) % 2 ≠ 0 →
       Data.new 0 0 1 ["a", "b"] [7, 8, 9] = (none : Option (Data Nat))) ∧
    (∀ d, Data.new 0 0 1 ["a", "b"] [7, 8, 9] = some d →
       (3 : Nat) % 2 = 0 ∧ d.row_count = 3 / 2) := by
  have h := data_new_asserts_divisibility (α := Nat) 0 0 1 ["a", "b"]
    [7, 8, 9] (by decide)
  simpa using h

/-- C10: `Data::new` panics on an empty source-name list — the check
computes `buffer.len() % 0` — for every buffer, the empty one included, so
no `Data` with zero sources is ever constructed. -/
theorem data_new_empty_names_panics {α : Type} :
    (∀ (start end_ : Timestamp) (step : Step) (buf : List α),
       Data.new start end_ step [] buf = none) ∧
    (∀ (start end_ : Timestamp) (step : Step) (names : List String)
       (buf : List α) (d : Data α),
       Data.new start end_ step names buf = some d → d.names ≠ []) := by
  constructor
  · intro start end_ step buf
    simp [Data.new]
  · intro start end_ step names buf d hd
    by_cases hne : names.length = 0
    · rw [Data.new, if_pos hne] at hd
      exact absurd hd (by simp)
    · rw [Data.new, if_neg hne] at hd
      by_cases hmod : buf.length % names.length = 0
      · rw [if_pos hmod, Option.some.injEq] at hd
        rw [← hd]
        simpa [← List.length_pos_iff_ne_nil] using Nat.pos_of_ne_zero hne
      · rw [if_neg hmod] at hd
        exact absurd hd (by simp)

/-- Witness for C10: the empty-names, empty-buffer call still panics, and a
successfully constructed `Data` has nonempty names. -/
theorem data_new_empty_names_panics_witness :
    Data.new 0 0 1 [] ([] : List Nat) = none ∧
    ({ start := 0, end_ := 0, step := 1, names := ["a"], data := [5],
       row_count := 1 } : Data Nat).names ≠ [] :=
  ⟨data_new_empty_names_panics.1 0 0 1 [],
   data_new_empty_names_panics.2 0 0 1 ["a"] [5] _ (by simp [Data.new])⟩

/-- Modelled from the spec: the consolidation functions `AVERAGE`, `MIN`,
`MAX`, `LAST` (`ConsolidationFn` lives in the crate root, which is absent
from this snapshot; `Archive::new` carries it opaquely). -/
inductive ConsolidationFn : Type where
  | Avg : ConsolidationFn
  | Min : ConsolidationFn
  | Max : ConsolidationFn
  | Last : ConsolidationFn
deriving DecidableEq, Repr

/-- `ops::create::Archive`: consolidation function, x-files factor, steps
per row, row count.  The factor is an `f64` in Rust; it is modelled as `ℚ`,
on which the range test `0 ≤ x ∧ x < 1` agrees with the IEEE comparisons
for every numeric value the claim quantifies over. -/
structure Archive : Type where
  consolidation_fn : ConsolidationFn
  xfiles_factor : ℚ
  steps : Nat
  rows : Nat
deriving DecidableEq, Repr

/-- `Archive::new`: accept iff `(0.0..1.0).contains(&xfiles_factor)`,
i.e. `0 ≤ xff ∧ xff < 1` (the half-open range deliberately rejects `1.0`),
else return `InvalidArgument`. -/
def Archive.new (consolidation_fn : ConsolidationFn) (xfiles_factor : ℚ)
    (steps rows : Nat) : Except InvalidArgument Archive :=
  if 0 ≤ xfiles_factor ∧ xfiles_factor < 1 then
    .ok { consolidation_fn := consolidation_fn,
          xfiles_factor := xfiles_factor, steps := steps, rows := rows }
  else .error { msg := "xfiles_factor must be in [0, 1]" }

/-- C3: `Archive::new` returns `Ok` for every x-files factor in `[0, 1)`
and an invalid-argument error for factor `1` and for every negative
factor; an error means no `Archive` value is ever produced. -/
theorem archive_new_xfiles_spec (cf : ConsolidationFn) (xff : ℚ)
    (steps rows : Nat) :
    (0 ≤ xff ∧ xff < 1 →
       Archive.new cf xff steps rows =
         .ok { consolidation_fn := cf, xfiles_factor := xff,
               steps := steps, rows := rows }) ∧
    (xff = 1 ∨ xff < 0 →
       Archive.new cf xff steps rows =
         .error { msg := "xfiles_factor must be in [0, 1]" }) := by
  constructor
  · intro h
    rw [Archive.new, if_pos h]
  · intro h
    have hnot : ¬ (0 ≤ xff ∧ xff < 1) := by
      rcases h with h | h
      · rintro ⟨_, h2⟩
        rw [h] at h2
        exact lt_irrefl 1 h2
      · rintro ⟨h1, _⟩
        exact absurd h (not_lt.mpr h1)
    rw [Archive.new, if_neg hnot]

/-- Witness for C3: factor `1/2` is accepted, factors `1` and `-1` are
rejected. -/
theorem archive_new_xfiles_spec_witness :
    Archive.new .Avg (1 / 2) 1 24 =
      .ok { consolidation_fn := .Avg, xfiles_factor := 1 / 2,
            steps := 1, rows := 24 } ∧
    Archive.new .Avg 1 1 24 =
      .error { msg := "xfiles_factor must be in [0, 1]" } ∧
    Archive.new .Avg (-1) 1 24 =
      .error { msg := "xfiles_factor must be in [0, 1]" } :=
  ⟨(archive_new_xfiles_spec .Avg (1 / 2) 1 24).1 (by norm_num),
   (archive_new_xfiles_spec .Avg 1 1 24).2 (Or.inl rfl),
   (archive_new_xfiles_spec .Avg (-1) 1 24).2 (Or.inr (by norm_num))⟩

/-- `ops::update::LockingMode`. -/
inductive LockingMode : Type where
  | DEFAULT : LockingMode
  | NONE : LockingMode
  | BLOCK : LockingMode
  | TRY : LockingMode
deriving DecidableEq, Repr

/-- `ops::update::Options`. -/
structure Options : Type where
  skip_past_updates : Bool
  locking_mode : LockingMode
deriving DecidableEq, Repr

/-- `Options::bits`: bit 0 for skip-past-updates, locking mode selector
shifted left by 7. -/
def Options.bits (o : Options) : Nat :=
  (if o.skip_past_updates then 1 else 0) |||
    (match o.locking_mode with
      | .DEFAULT => 0
      | .NONE => 1 <<< 7
      | .BLOCK => 2 <<< 7
      | .TRY => 3 <<< 7)

/-- `ops::update::Datum`: the value for one DS at one timestamp.  `Int`
carries a `u64`, modelled as `Nat` (it is only rendered in decimal, never
computed with); `Float` carries its `f64` payload abstractly as `F`, since
the code only ever hands it to its `Display` rendering. -/
inductive Datum (F : Type) : Type where
  | Unspecified : Datum F
  | Int : Nat → Datum F
  | Float : F → Datum F
deriving DecidableEq, Repr

/-- `ops::update::BatchTime`: engine-chosen "now" or an explicit
instant. -/
inductive BatchTime : Type where
  | Now : BatchTime
  | Timestamp : Timestamp → BatchTime
deriving DecidableEq, Repr

/-- The fragment written for one `Datum` inside `build_datum_args`: `"U"`,
the decimal `u64`, or the `Display` rendering of the float (`showF` stands
for Rust's `f64` `Display`). -/
def datum_str {F : Type} (showF : F → String) : Datum F → String
  | .Unspecified => "U"
  | .Int i => toString i
  | .Float f => showF f

/-- The time part written first: the literal `'N'` for `Now`, or the
decimal epoch-seconds of the instant (`write!("{}", ts.timestamp())`). -/
def time_str : BatchTime → String
  | .Now => "N"
  | .Timestamp ts => toString ts

/-- The token built for one batch by the closure in `build_datum_args`:
the time part, then `':' ++ datum` appended for each datum in order. -/
def batch_token {F : Type} (showF : F → String)
    (b : BatchTime × List (Datum F)) : String :=
  b.2.foldl (fun acc d => acc ++ ":" ++ datum_str showF d) (time_str b.1)

/-- `build_datum_args`: check every batch against `expected_len` (seeded
from the first batch when `none`), render each conforming batch to its
token, pass it through `CString::new`, and stop at the first error, as
`collect::<Result<_, _>>` does. -/
def build_datum_args {F : Type} (showF : F → String) :
    List (BatchTime × List (Datum F)) → Option Nat →
    Except RrdError (List String)
  | [], _ => .ok []
  | b :: rest, expected_len =>
    let expected := expected_len.getD b.2.length
    if b.2.length ≠ expected then
      .error (.InvalidArgument "Batch sizes don't match")
    else
      match cstring_new (batch_token showF b) with
      | .error e => .error e
      | .ok tok =>
        match build_datum_args showF rest (some expected) with
        | .error e => .error e
        | .ok toks => .ok (tok :: toks)

/-- The argument package handed to `rrd_updatex_r`.  Building it is the
last step before the foreign call, so an `Except.error` result models
"rejected before any foreign invocation". -/
structure ForeignUpdateCall : Type where
  filename : String
  template : Option String
  extra_flags : Nat
  args : List String
deriving DecidableEq, Repr

/-- `update_all` up to (and excluding) the foreign call: filename through
`CString::new`, tokens via `build_datum_args` with no expected length,
null template, option bits. -/
def update_all {F : Type} (showF : F → String) (filename : String)
    (update_options : Options) (data : List (BatchTime × List (Datum F))) :
    Except RrdError ForeignUpdateCall := do
  let fn ← cstring_new filename
  let args ← build_datum_args showF data none
  .ok { filename := fn, template := none,
        extra_flags := update_options.bits, args := args }

/-- `update` up to (and excluding) the foreign call: filename, then the
`:`-joined `ds_names` template, then tokens via `build_datum_args` with
`expected_len = Some(ds_names.len())`. -/
def update {F : Type} (showF : F → String) (filename : String)
    (ds_names : List String) (extra_flags : Nat)
    (data : List (BatchTime × List (Datum F))) :
    Except RrdError ForeignUpdateCall := do
  let fn ← cstring_new filename
  let template ← cstring_new (String.intercalate ":" ds_names)
  let args ← build_datum_args showF data (some ds_names.length)
  .ok { filename := fn, template := some template,
        extra_flags := extra_flags, args := args }

theorem digitChar_ne_nul (n : Nat) : Nat.digitChar n ≠ nulChar := by
  match n with
  | 0 => decide
  | 1 => decide
  | 2 => decide
  | 3 => decide
  | 4 => decide
  | 5 => decide
  | 6 => decide
  | 7 => decide
  | 8 => decide
  | 9 => decide
  | 10 => decide
  | 11 => decide
  | 12 => decide
  | 13 => decide
  | 14 => decide
  | 15 => decide
  | (m + 16) => exact (by decide : ('*' : Char) ≠ nulChar)

theorem toDigitsCore_ne_nul (b : Nat) :
    ∀ (fuel n : Nat) (ds : List Char), (∀ c ∈ ds, c ≠ nulChar) →
      ∀ c ∈ Nat.toDigitsCore b fuel n ds, c ≠ nulChar := by
  intro fuel
  induction fuel with
  | zero =>
    intro n ds hds
    simpa [Nat.toDigitsCore] using hds
  | succ fuel ih =>
    intro n ds hds
    rw [Nat.toDigitsCore]
    have hcons : ∀ c ∈ Nat.digitChar (n % b) :: ds, c ≠ nulChar := by
      intro c hc
      rcases List.mem_cons.mp hc with h | h
      · rw [h]; exact digitChar_ne_nul _
      · exact hds c h
    split
    · exact hcons
    · exact ih _ _ hcons

theorem nul_not_mem_natRepr (n : Nat) : nulChar ∉ (Nat.repr n).data := by
  intro h
  have hall : ∀ c ∈ Nat.toDigits 10 n, c ≠ nulChar :=
    toDigitsCore_ne_nul 10 (n + 1) n [] (by intro c hc; cases hc)
  exact hall nulChar h rfl

theorem nul_not_mem_toString_int (i : Int) :
    nulChar ∉ (toString i).data := by
  cases i with
  | ofNat m => exact nul_not_mem_natRepr m
  | negSucc m =>
    intro h
    have hrw : toString (Int.negSucc m) = "-" ++ Nat.repr (m + 1) := rfl
    rw [hrw, String.data_append] at h
    rcases List.mem_append.mp h with h1 | h1
    · have : nulChar = '-' := by simpa using h1
      exact absurd this (by decide)
    · exact nul_not_mem_natRepr (m + 1) h1

theorem datum_str_no_nul {F : Type} (showF : F → String)
    (hshow : ∀ f, nulChar ∉ (showF f).data) (d : Datum F) :
    nulChar ∉ (datum_str showF d).data := by
  cases d with
  | Unspecified => exact (by decide : nulChar ∉ ("U" : String).data)
  | Int i => exact nul_not_mem_natRepr i
  | Float f => exact hshow f

theorem time_str_no_nul (t : BatchTime) : nulChar ∉ (time_str t).data := by
  cases t with
  | Now => exact (by decide : nulChar ∉ ("N" : String).data)
  | Timestamp ts => exact nul_not_mem_toString_int ts

theorem batch_token_no_nul {F : Type} (showF : F → String)
    (hshow : ∀ f, nulChar ∉ (showF f).data)
    (b : BatchTime × List (Datum F)) :
    nulChar ∉ (batch_token showF b).data := by
  rw [batch_token]
  generalize hinit : time_str b.1 = init
  have hin : nulChar ∉ init.data := by
    rw [← hinit]; exact time_str_no_nul b.1
  clear hinit
  induction b.2 generalizing init with
  | nil => simpa using hin
  | cons d ds ih =>
    rw [List.foldl_cons]
    apply ih
    intro hmem
    rw [String.data_append, String.data_append] at hmem
    rcases List.mem_append.mp hmem with h1 | h1
    · rcases List.mem_append.mp h1 with h2 | h2
      · exact hin h2
      · have : nulChar = ':' := by simpa using h2
        exact absurd this (by decide)
    · exact datum_str_no_nul showF hshow d h1

/-- `cstring_new` succeeds on every nul-free string. -/
theorem cstring_new_ok (s : String) (h : nulChar ∉ s.data) :
    cstring_new s = .ok s := by
  have hc : ¬ s.data.contains nulChar = true := by
    intro hcon
    obtain ⟨c, hcm, hbeq⟩ := List.contains_iff_exists_mem_beq.mp hcon
    rw [beq_iff_eq] at hbeq
    subst hbeq
    exact h hcm
  rw [cstring_new, if_neg hc]

theorem intercalate_go_no_nul :
    ∀ (as : List String) (acc : String), nulChar ∉ acc.data →
      (∀ s ∈ as, nulChar ∉ s.data) →
      nulChar ∉ (String.intercalate.go acc ":" as).data := by
  intro as
  induction as with
  | nil =>
    intro acc hacc _
    exact hacc
  | cons b bs ih =>
    intro acc hacc hmem
    show nulChar ∉ (String.intercalate.go (acc ++ ":" ++ b) ":" bs).data
    apply ih
    · intro hin
      rw [String.data_append, String.data_append] at hin
      rcases List.mem_append.mp hin with h1 | h1
      · rcases List.mem_append.mp h1 with h2 | h2
        · exact hacc h2
        · exact absurd (show nulChar = ':' by simpa using h2) (by decide)
      · exact hmem b (List.mem_cons_self b bs) h1
    · intro s hs
      exact hmem s (List.mem_cons.mpr (Or.inr hs))

theorem intercalate_colon_no_nul (l : List String)
    (h : ∀ s ∈ l, nulChar ∉ s.data) :
    nulChar ∉ (String.intercalate ":" l).data := by
  cases l with
  | nil => exact (by decide : nulChar ∉ ("" : String).data)
  | cons a as =>
    show nulChar ∉ (String.intercalate.go a ":" as).data
    exact intercalate_go_no_nul as a (h a (List.mem_cons_self a as))
      (fun s hs => h s (List.mem_cons.mpr (Or.inr hs)))

/-- The appending loop of `build_datum_args` is `intercalate ":"` of the
time part and the datum fragments. -/
theorem foldl_colon_eq_intercalate_go {β : Type} (g : β → String) :
    ∀ (l : List β) (init : String),
      l.foldl (fun acc d => acc ++ ":" ++ g d) init =
        String.intercalate.go init ":" (l.map g) := by
  intro l
  induction l with
  | nil => intro init; rfl
  | cons x xs ih =>
    intro init
    rw [List.foldl_cons, List.map_cons]
    exact ih (init ++ ":" ++ g x)

/-- All batches conforming to the expected length render to exactly one
token each, in order. -/
theorem build_datum_args_ok {F : Type} (showF : F → String)
    (hshow : ∀ f, nulChar ∉ (showF f).data) :
    ∀ (batches : List (BatchTime × List (Datum F))) (n : Nat),
      (∀ b ∈ batches, b.2.length = n) →
      build_datum_args showF batches (some n) =
        .ok (batches.map (batch_token showF)) := by
  intro batches
  induction batches with
  | nil => intro n _; rfl
  | cons b rest ih =>
    intro n h
    have hb : b.2.length = n := h b (List.mem_cons_self b rest)
    simp only [build_datum_args, Option.getD_some]
    rw [if_neg (by simpa using hb),
      cstring_new_ok _ (batch_token_no_nul showF hshow b),
      ih n (fun b' hb' => h b' (List.mem_cons.mpr (Or.inr hb')))]
    rfl

/-- A batch deviating from the expected length forces the
invalid-argument error, whatever its position. -/
theorem build_datum_args_mismatch {F : Type} (showF : F → String)
    (hshow : ∀ f, nulChar ∉ (showF f).data) :
    ∀ (batches : List (BatchTime × List (Datum F))) (n : Nat),
      (∃ b ∈ batches, b.2.length ≠ n) →
      build_datum_args showF batches (some n) =
        .error (.InvalidArgument "Batch sizes don't match") := by
  intro batches
  induction batches with
  | nil =>
    intro n h
    exact absurd h (by simp)
  | cons b rest ih =>
    intro n h
    simp only [build_datum_args, Option.getD_some]
    by_cases hb : b.2.length = n
    · rw [if_neg (by simpa using hb),
        cstring_new_ok _ (batch_token_no_nul showF hshow b)]
      have hrest : ∃ b' ∈ rest, b'.2.length ≠ n := by
        rcases h with ⟨b', hmem, hne⟩
        rcases List.mem_cons.mp hmem with rfl | hmem'
        · exact absurd hb hne
        · exact ⟨b', hmem', hne⟩
      rw [ih n hrest]
    · rw [if_pos hb]

/-- C4: two batches with different point counts make `update_all` return
the invalid-argument error; the foreign-call argument package is never
built. -/
theorem update_all_rejects_mismatched_batches {F : Type}
    (showF : F → String) (hshow : ∀ f, nulChar ∉ (showF f).data)
    (filename : String) (hfn : nulChar ∉ filename.data)
    (options : Options) (data : List (BatchTime × List (Datum F)))
    (b1 b2 : BatchTime × List (Datum F)) (h1 : b1 ∈ data) (h2 : b2 ∈ data)
    (hne : b1.2.length ≠ b2.2.length) :
    update_all showF filename options data =
      .error (.InvalidArgument "Batch sizes don't match") := by
  cases data with
  | nil => cases h1
  | cons b0 rest =>
    have hbad : ∃ b ∈ rest, b.2.length ≠ b0.2.length := by
      by_cases e1 : b1.2.length = b0.2.length
      · have e2 : b2.2.length ≠ b0.2.length := by omega
        rcases List.mem_cons.mp h2 with rfl | hm
        · exact absurd rfl e2
        · exact ⟨b2, hm, e2⟩
      · rcases List.mem_cons.mp h1 with rfl | hm
        · exact absurd rfl e1
        · exact ⟨b1, hm, e1⟩
    have hargs : build_datum_args showF (b0 :: rest) none =
        .error (.InvalidArgument "Batch sizes don't match") := by
      simp only [build_datum_args, Option.getD_none]
      rw [if_neg (by simp),
        cstring_new_ok _ (batch_token_no_nul showF hshow b0),
        build_datum_args_mismatch showF hshow rest b0.2.length hbad]
    simp only [update_all, cstring_new_ok filename hfn, hargs]
    rfl

/-- Witness for C4: the second batch has no points while the first has
one; the call is rejected. -/
theorem update_all_rejects_mismatched_batches_witness :
    update_all (fun f => Empty.elim f) "db.rrd"
      { skip_past_updates := false, locking_mode := .DEFAULT }
      [(.Now, [.Unspecified]), (.Now, [])] =
      .error (.InvalidArgument "Batch sizes don't match") :=
  update_all_rejects_mismatched_batches (fun f => Empty.elim f)
    (fun f => Empty.elim f) "db.rrd" (by decide)
    { skip_past_updates := false, locking_mode := .DEFAULT }
    [(.Now, [.Unspecified]), (.Now, [])]
    (.Now, [.Unspecified]) (.Now, []) (by simp) (by simp) (by decide)

/-- C6: a conforming batch list renders to exactly one token per batch;
the token is the `':'`-joined sequence of the time part and the datum
fragments, the time part being `"N"` for `Now` or the decimal epoch
seconds, and each datum `"U"`, the decimal integer, or the float
rendering. -/
theorem update_batch_token_shape {F : Type} (showF : F → String)
    (hshow : ∀ f, nulChar ∉ (showF f).data)
    (batches : List (BatchTime × List (Datum F))) (n : Nat)
    (hlen : ∀ b ∈ batches, b.2.length = n) :
    build_datum_args showF batches (some n) =
      .ok (batches.map (batch_token showF)) ∧
    (∀ (ts : BatchTime) (data : List (Datum F)),
       batch_token showF (ts, data) =
         String.intercalate ":"
           (time_str ts :: data.map (datum_str showF))) ∧
    time_str .Now = "N" ∧
    (∀ t : Timestamp, time_str (.Timestamp t) = toString t) ∧
    datum_str showF .Unspecified = "U" ∧
    (∀ i : Nat, datum_str showF (.Int i) = toString i) ∧
    (∀ f : F, datum_str showF (.Float f) = showF f) := by
  refine ⟨build_datum_args_ok showF hshow batches n hlen, ?_,
    rfl, fun _ => rfl, rfl, fun _ => rfl, fun _ => rfl⟩
  intro ts data
  cases data with
  | nil => rfl
  | cons d ds =>
    show (d :: ds).foldl (fun acc x => acc ++ ":" ++ datum_str showF x)
        (time_str ts) =
      String.intercalate.go (time_str ts) ":"
        ((d :: ds).map (datum_str showF))
    exact foldl_colon_eq_intercalate_go (datum_str showF) (d :: ds)
      (time_str ts)

/-- Witness for C6: the batch `(920804460, [100, U])` renders to the
single token `"920804460:100:U"`. -/
theorem update_batch_token_shape_witness :
    build_datum_args (fun f => Empty.elim f)
      [((.Timestamp 920804460 : BatchTime),
        [(.Int 100 : Datum Empty), .Unspecified])] (some 2) =
      .ok ["920804460:100:U"] ∧
    batch_token (fun f => Empty.elim f)
      ((.Timestamp 920804460 : BatchTime),
        [(.Int 100 : Datum Empty), .Unspecified]) =
      String.intercalate ":" ["920804460", "100", "U"] := by
  have h := update_batch_token_shape (fun f => Empty.elim f)
    (fun f => Empty.elim f)
    [((.Timestamp 920804460 : BatchTime),
      [(.Int 100 : Datum Empty), .Unspecified])] 2 (by simp)
  refine ⟨?_, ?_⟩
  · rw [h.1]
    rfl
  · rw [h.2.1 (.Timestamp 920804460) [.Int 100, .Unspecified]]
    rfl

/-- C9: with a `ds_names` template, any batch whose point count differs
from `ds_names.len()` makes `update` return the invalid-argument error
before the foreign call — even when all batches agree with each other. -/
theorem update_rejects_template_mismatch {F : Type}
    (showF : F → String) (hshow : ∀ f, nulChar ∉ (showF f).data)
    (filename : String) (hfn : nulChar ∉ filename.data)
    (ds_names : List String) (hds : ∀ s ∈ ds_names, nulChar ∉ s.data)
    (extra_flags : Nat) (data : List (BatchTime × List (Datum F)))
    (b : BatchTime × List (Datum F)) (hb : b ∈ data)
    (hlen : b.2.length ≠ ds_names.length) :
    update showF filename ds_names extra_flags data =
      .error (.InvalidArgument "Batch sizes don't match") := by
  have hargs := build_datum_args_mismatch showF hshow data ds_names.length
    ⟨b, hb, hlen⟩
  simp only [update, cstring_new_ok filename hfn,
    cstring_new_ok _ (intercalate_colon_no_nul ds_names hds), hargs]
  rfl

/-- Witness for C9: template of one name, but the only batch carries two
points; rejected even though all batches agree with each other. -/
theorem update_rejects_template_mismatch_witness :
    update (fun f => Empty.elim f) "db.rrd" ["ds2"] 0
      [(.Now, [(.Int 1 : Datum Empty), .Int 2])] =
      .error (.InvalidArgument "Batch sizes don't match") :=
  update_rejects_template_mismatch (fun f => Empty.elim f)
    (fun f => Empty.elim f) "db.rrd" (by decide) ["ds2"]
    (by intro s hs; rw [show s = "ds2" by simpa using hs]; decide) 0
    [(.Now, [(.Int 1 : Datum Empty), .Int 2])]
    (.Now, [.Int 1, .Int 2]) (by simp) (by decide)

/-- `util::MaybeNullTerminatedArrayOfStrings<NT>`: the owned pointer
array.  A pointer is modelled as `Option String`: `some s` is a non-null
pointer owning the C string `s` (`CString::into_raw`), `none` is the null
pointer. -/
structure MaybeNullTerminatedArrayOfStrings
    (is_null_terminated : Bool) : Type where
  pointers : List (Option String)
deriving DecidableEq, Repr

/-- `MaybeNullTerminatedArrayOfStrings::new`: convert every string with
`CString::new` (first failure aborts), then append one null pointer when
null-terminated. -/
def MaybeNullTerminatedArrayOfStrings.new (nt : Bool)
    (strings : List String) :
    Except RrdError (MaybeNullTerminatedArrayOfStrings nt) := do
  let ptrs ← strings.mapM (fun s => (cstring_new s).map some)
  .ok { pointers := if nt then ptrs ++ [none] else ptrs }

/-- `len`: the pointer count, excluding the trailing null when
null-terminated. -/
def MaybeNullTerminatedArrayOfStrings.len {nt : Bool}
    (a : MaybeNullTerminatedArrayOfStrings nt) : Nat :=
  if nt then a.pointers.length - 1 else a.pointers.length

/-- `is_empty`: `len() == 0`. -/
def MaybeNullTerminatedArrayOfStrings.is_empty {nt : Bool}
    (a : MaybeNullTerminatedArrayOfStrings nt) : Bool :=
  a.len = 0

/-- `as_ptr` returns the null pointer exactly when `is_empty()` (else the
backing array's address); the boolean records the observable
nullness. -/
def MaybeNullTerminatedArrayOfStrings.as_ptr_is_null {nt : Bool}
    (a : MaybeNullTerminatedArrayOfStrings nt) : Bool :=
  a.is_empty

/-- `util::ArrayOfStrings`. -/
abbrev ArrayOfStrings := MaybeNullTerminatedArrayOfStrings false

/-- `util::NullTerminatedArrayOfStrings`. -/
abbrev NullTerminatedArrayOfStrings := MaybeNullTerminatedArrayOfStrings true

theorem mapM_cstring_some_ok (strings : List String)
    (h : ∀ s ∈ strings, nulChar ∉ s.data) :
    strings.mapM (fun s => (cstring_new s).map some) =
      .ok (strings.map some) := by
  induction strings with
  | nil => rfl
  | cons a as ih =>
    rw [List.mapM_cons, cstring_new_ok a (h a (List.mem_cons_self a as)),
      ih (fun s hs => h s (List.mem_cons.mpr (Or.inr hs)))]
    rfl

/-- C5: an `ArrayOfStrings` over the empty input has zero length and a
null pointer; a `NullTerminatedArrayOfStrings` over `k` strings has
`len() = k` and its pointer array is `k` non-null pointers followed by
exactly one null pointer. -/
theorem foreign_string_array_boundary_spec (strings : List String)
    (h : ∀ s ∈ strings, nulChar ∉ s.data) :
    (∀ a : ArrayOfStrings,
       MaybeNullTerminatedArrayOfStrings.new false [] = .ok a →
       a.len = 0 ∧ a.as_ptr_is_null = true) ∧
    (∀ a : NullTerminatedArrayOfStrings,
       MaybeNullTerminatedArrayOfStrings.new true strings = .ok a →
       a.len = strings.length ∧
       a.pointers = strings.map some ++ [none]) := by
  constructor
  · intro a ha
    have : a = { pointers := [] } := by
      have : (MaybeNullTerminatedArrayOfStrings.new false [] :
          Except RrdError ArrayOfStrings) =
          .ok { pointers := [] } := rfl
      rw [this] at ha
      exact (Except.ok.injEq _ _).mp ha.symm
    rw [this]
    exact ⟨rfl, rfl⟩
  · intro a ha
    rw [MaybeNullTerminatedArrayOfStrings.new,
      mapM_cstring_some_ok strings h] at ha
    have hpa : a.pointers = strings.map some ++ [none] := by
      have hok : (Except.ok { pointers := strings.map some ++ [none] } :
          Except RrdError NullTerminatedArrayOfStrings) = .ok a := ha
      rw [← (Except.ok.injEq _ _).mp hok]
    refine ⟨?_, hpa⟩
    rw [MaybeNullTerminatedArrayOfStrings.len, if_pos rfl, hpa]
    simp

/-- Witness for C5: the empty array is null with zero length; a two-string
null-terminated array has two non-null pointers then one null. -/
theorem foreign_string_array_boundary_spec_witness :
    (∀ a : ArrayOfStrings,
       MaybeNullTerminatedArrayOfStrings.new false [] = .ok a →
       a.len = 0 ∧ a.as_ptr_is_null = true) ∧
    (∀ a : NullTerminatedArrayOfStrings,
       MaybeNullTerminatedArrayOfStrings.new true ["one", "two"] = .ok a →
       a.len = 2 ∧
       a.pointers = [some "one", some "two", none]) :=
  foreign_string_array_boundary_spec ["one", "two"] (by decide)

/-- `ops::graph::elements::GraphElement`.  The payload structs (`Def`,
`Line`, …) are abstracted to one parameter `α`: the `graph` preconditions
match only on the variant, never on the payload. -/
inductive GraphElement (α : Type) : Type where
  | Def : α → GraphElement α
  | CDef : α → GraphElement α
  | VDef : α → GraphElement α
  | Print : α → GraphElement α
  | GPrint : α → GraphElement α
  | Comment : α → GraphElement α
  | VRule : α → GraphElement α
  | HRule : α → GraphElement α
  | Line : α → GraphElement α
  | Area : α → GraphElement α
  | Tick : α → GraphElement α
  | Shift : α → GraphElement α
  | TextAlign : α → GraphElement α
deriving DecidableEq, Repr

/-- The first `matches!` test in `graph`: is the element a `Def`? -/
def GraphElement.is_def {α : Type} : GraphElement α → Bool
  | .Def _ => true
  | _ => false

/-- The second `matches!` test in `graph`: is the element a `Print`,
`GPrint`, `Line` or `Area`? -/
def GraphElement.is_output {α : Type} : GraphElement α → Bool
  | .Print _ => true
  | .GPrint _ => true
  | .Line _ => true
  | .Area _ => true
  | _ => false

/-- The token list (`argc`/`argv`) handed to `rrd_graph_v`; as with
update, an `Except.error` result means the foreign call never happens. -/
structure ForeignGraphCall : Type where
  args : List String
deriving DecidableEq, Repr

/-- `graph` up to (and excluding) the foreign call: the two early element
checks, then the token build — `["graphv", "-"]`, the image-format args,
the props args, each element's args in order, all through `CString::new`.
The three `append_to` producers are parameters: the checks run before any
of them. -/
def graph {α : Type}
    (image_format_args props_args : Except RrdError (List String))
    (element_args : GraphElement α → Except RrdError (List String))
    (elements : List (GraphElement α)) :
    Except RrdError ForeignGraphCall :=
  if ¬ elements.any (fun c => c.is_def) then
    .error (.InvalidArgument "Must have at least one Def element")
  else if ¬ elements.any (fun c => c.is_output) then
    .error (.InvalidArgument
      "Must have at least one Line, Area, GPrint, or Print element")
  else do
    let fmt ← image_format_args
    let props ← props_args
    let elems ← elements.mapM element_args
    let args := ["graphv", "-"] ++ fmt ++ props ++ elems.flatten
    let cargs ← args.mapM cstring_new
    .ok { args := cargs }

/-- C8: an element list without a `Def` is rejected with the
invalid-argument `Def` error, and one without any of `Print`, `GPrint`,
`Line`, `Area` is rejected with an invalid-argument error — in both cases
whatever the token producers are, i.e. before any token is built. -/
theorem graph_requires_def_and_output {α : Type}
    (image_format_args props_args : Except RrdError (List String))
    (element_args : GraphElement α → Except RrdError (List String))
    (elements : List (GraphElement α)) :
    ((∀ e ∈ elements, e.is_def = false) →
       graph image_format_args props_args element_args elements =
         .error (.InvalidArgument "Must have at least one Def element")) ∧
    ((∀ e ∈ elements, e.is_output = false) →
       ∃ msg, graph image_format_args props_args element_args elements =
         .error (.InvalidArgument msg)) := by
  constructor
  · intro hno
    have hany : ¬ elements.any (fun c => c.is_def) = true := by
      rw [List.any_eq_true]
      rintro ⟨e, he, hd⟩
      rw [hno e he] at hd
      exact Bool.false_ne_true hd
    rw [graph, if_pos hany]
  · intro hno
    by_cases hdef : elements.any (fun c => c.is_def) = true
    · refine ⟨"Must have at least one Line, Area, GPrint, or Print element",
        ?_⟩
      have hany : ¬ elements.any (fun c => c.is_output) = true := by
        rw [List.any_eq_true]
        rintro ⟨e, he, hd⟩
        rw [hno e he] at hd
        exact Bool.false_ne_true hd
      rw [graph, if_neg (by simpa using hdef), if_pos hany]
    · exact ⟨"Must have at least one Def element", by rw [graph, if_pos hdef]⟩

/-- Witness for C8: a lone `Line` has no `Def`; a lone `Def` has no
output element. -/
theorem graph_requires_def_and_output_witness :
    graph (.ok []) (.ok []) (fun _ => .ok []) [GraphElement.Line ()] =
      .error (.InvalidArgument "Must have at least one Def element") ∧
    ∃ msg, graph (.ok []) (.ok []) (fun _ => .ok [])
      [GraphElement.Def ()] = .error (.InvalidArgument msg) :=
  ⟨(graph_requires_def_and_output (.ok []) (.ok []) (fun _ => .ok [])
      [GraphElement.Line ()]).1 (by decide),
   (graph_requires_def_and_output (.ok []) (.ok []) (fun _ => .ok [])
      [GraphElement.Def ()]).2 (by decide)⟩

/-- `char::to_digit(16)`: the hex value of a digit character, or `none`
for any other character. -/
def to_digit16 (c : Char) : Option Nat :=
  if '0' ≤ c ∧ c ≤ '9' then some (c.toNat - '0'.toNat)
  else if 'a' ≤ c ∧ c ≤ 'f' then some (c.toNat - 'a'.toNat + 10)
  else if 'A' ≤ c ∧ c ≤ 'F' then some (c.toNat - 'A'.toNat + 10)
  else none

/-- Is the character a hex digit, i.e. does `to_digit(16)` accept it? -/
def isHex (c : Char) : Bool := (to_digit16 c).isSome

/-- `ops::graph::parse_hex_byte`: two arbitrary characters
(`pair(anychar, anychar)`), both mapped through `to_digit(16)`
(`map_opt`), combined as `(hi << 4) | lo`; on fewer than two characters
or a non-digit, the parse fails and consumes nothing (nom `Error`,
backtrackable). -/
def parse_hex_byte : List Char → Option (Nat × List Char)
  | hi :: lo :: rest =>
    match to_digit16 hi, to_digit16 lo with
    | some h, some l => some ((h <<< 4) ||| l, rest)
    | _, _ => none
  | _ => none

/-- `ops::graph::Color` (`u8` channels as `Nat`; the parser only produces
values below 256). -/
structure Color : Type where
  red : Nat
  green : Nat
  blue : Nat
  alpha : Option Nat
deriving DecidableEq, Repr

/-- The `tuple((hex, hex, hex, opt(hex)))` chain after the `"#"` tag,
with `all_consuming` requiring empty leftover input: three mandatory hex
bytes, an optional fourth (nom `opt` backtracks on its failure), every
failure mapped to `InvalidArgument "Invalid color"`. -/
def color_body (rest0 : List Char) : Except InvalidArgument Color :=
  match parse_hex_byte rest0 with
  | none => .error { msg := "Invalid color" }
  | some (r, rest1) =>
    match parse_hex_byte rest1 with
    | none => .error { msg := "Invalid color" }
    | some (g, rest2) =>
      match parse_hex_byte rest2 with
      | none => .error { msg := "Invalid color" }
      | some (b, rest3) =>
        match parse_hex_byte rest3 with
        | some (a, rest4) =>
          if rest4 = [] then
            .ok { red := r, green := g, blue := b, alpha := some a }
          else .error { msg := "Invalid color" }
        | none =>
          if rest3 = [] then
            .ok { red := r, green := g, blue := b, alpha := none }
          else .error { msg := "Invalid color" }

/-- `impl FromStr for Color`: `all_consuming(preceded(tag "#",
tuple(hex, hex, hex, opt hex)))`, every failure mapped to
`InvalidArgument "Invalid color"`. -/
def Color.from_str (s : String) : Except InvalidArgument Color :=
  match s.data with
  | '#' :: rest0 => color_body rest0
  | _ => .error { msg := "Invalid color" }

/-- The acceptance set the claim describes: `'#'` followed by exactly 6
or exactly 8 hex digits. -/
def color_shape (s : String) : Prop :=
  ∃ ds, s.data = '#' :: ds ∧ (∀ ch ∈ ds, isHex ch = true) ∧
    (ds.length = 6 ∨ ds.length = 8)

theorem from_str_eq_body (s : String) (ds : List Char)
    (h : s.data = '#' :: ds) : Color.from_str s = color_body ds := by
  unfold Color.from_str
  rw [h]
  split
  next rest heq =>
    cases heq
    rfl
  next hne =>
    exact absurd rfl (hne ds)

theorem from_str_no_hash (s : String) (c : Char) (ds : List Char)
    (h : s.data = c :: ds) (hc : c ≠ '#') :
    Color.from_str s = .error { msg := "Invalid color" } := by
  unfold Color.from_str
  rw [h]
  split
  next rest heq =>
    exact absurd (List.cons.injEq .. ▸ heq).1 hc
  next => rfl

theorem from_str_nil (s : String) (h : s.data = []) :
    Color.from_str s = .error { msg := "Invalid color" } := by
  unfold Color.from_str
  rw [h]

theorem parse_hex_byte_some (hi lo : Char) (rest : List Char) (h l : Nat)
    (hh : to_digit16 hi = some h) (hl : to_digit16 lo = some l) :
    parse_hex_byte (hi :: lo :: rest) = some ((h <<< 4) ||| l, rest) := by
  simp only [parse_hex_byte, hh, hl]

theorem parse_hex_byte_inv (l : List Char) (v : Nat) (rest : List Char)
    (h : parse_hex_byte l = some (v, rest)) :
    ∃ hi lo, l = hi :: lo :: rest ∧ isHex hi = true ∧ isHex lo = true := by
  match l with
  | [] => exact absurd h (by simp [parse_hex_byte])
  | [x] => exact absurd h (by simp [parse_hex_byte])
  | hi :: lo :: r =>
    refine ⟨hi, lo, ?_⟩
    cases hh : to_digit16 hi with
    | none =>
      simp only [parse_hex_byte, hh] at h
      exact Option.noConfusion h
    | some dh =>
      cases hl : to_digit16 lo with
      | none =>
        simp only [parse_hex_byte, hh, hl] at h
        exact Option.noConfusion h
      | some dl =>
        simp only [parse_hex_byte, hh, hl, Option.some.injEq,
          Prod.mk.injEq] at h
        exact ⟨by rw [h.2], by rw [isHex, hh]; rfl, by rw [isHex, hl]; rfl⟩

theorem parse_hex_byte_extend (hi lo : Char) (v : Nat)
    (h : parse_hex_byte [hi, lo] = some (v, [])) (rest : List Char) :
    parse_hex_byte (hi :: lo :: rest) = some (v, rest) := by
  cases hh : to_digit16 hi with
  | none =>
    simp only [parse_hex_byte, hh] at h
    exact Option.noConfusion h
  | some dh =>
    cases hl : to_digit16 lo with
    | none =>
      simp only [parse_hex_byte, hh, hl] at h
      exact Option.noConfusion h
    | some dl =>
      simp only [parse_hex_byte, hh, hl, Option.some.injEq,
        Prod.mk.injEq] at h ⊢
      exact ⟨h.1, trivial⟩

theorem isHex_exists (c : Char) (h : isHex c = true) :
    ∃ v, to_digit16 c = some v := by
  rw [isHex] at h
  cases hc : to_digit16 c with
  | none => rw [hc] at h; exact absurd h (by simp)
  | some v => exact ⟨v, rfl⟩

theorem color_body_six (h1 l1 h2 l2 h3 l3 : Char) (v1 v2 v3 : Nat)
    (p1 : parse_hex_byte [h1, l1] = some (v1, []))
    (p2 : parse_hex_byte [h2, l2] = some (v2, []))
    (p3 : parse_hex_byte [h3, l3] = some (v3, [])) :
    color_body [h1, l1, h2, l2, h3, l3] =
      .ok { red := v1, green := v2, blue := v3, alpha := none } := by
  have e1 := parse_hex_byte_extend h1 l1 v1 p1 [h2, l2, h3, l3]
  have e2 := parse_hex_byte_extend h2 l2 v2 p2 [h3, l3]
  simp only [color_body, e1, e2, p3]
  simp [parse_hex_byte]

theorem color_body_eight (h1 l1 h2 l2 h3 l3 h4 l4 : Char)
    (v1 v2 v3 v4 : Nat)
    (p1 : parse_hex_byte [h1, l1] = some (v1, []))
    (p2 : parse_hex_byte [h2, l2] = some (v2, []))
    (p3 : parse_hex_byte [h3, l3] = some (v3, []))
    (p4 : parse_hex_byte [h4, l4] = some (v4, [])) :
    color_body [h1, l1, h2, l2, h3, l3, h4, l4] =
      .ok { red := v1, green := v2, blue := v3, alpha := some v4 } := by
  have e1 := parse_hex_byte_extend h1 l1 v1 p1 [h2, l2, h3, l3, h4, l4]
  have e2 := parse_hex_byte_extend h2 l2 v2 p2 [h3, l3, h4, l4]
  have e3 := parse_hex_byte_extend h3 l3 v3 p3 [h4, l4]
  simp only [color_body, e1, e2, e3, p4]
  simp

theorem color_body_ok_shape (ds : List Char) (c : Color)
    (h : color_body ds = .ok c) :
    (∀ ch ∈ ds, isHex ch = true) ∧ (ds.length = 6 ∨ ds.length = 8) := by
  cases hp1 : parse_hex_byte ds with
  | none =>
    simp only [color_body, hp1] at h
    exact Except.noConfusion h
  | some pr1 =>
    obtain ⟨r, rest1⟩ := pr1
    obtain ⟨a1, b1, hds, hx1, hx2⟩ := parse_hex_byte_inv ds r rest1 hp1
    cases hp2 : parse_hex_byte rest1 with
    | none =>
      simp only [color_body, hp1, hp2] at h
      exact Except.noConfusion h
    | some pr2 =>
      obtain ⟨g, rest2⟩ := pr2
      obtain ⟨a2, b2, hr1, hx3, hx4⟩ := parse_hex_byte_inv rest1 g rest2 hp2
      cases hp3 : parse_hex_byte rest2 with
      | none =>
        simp only [color_body, hp1, hp2, hp3] at h
        exact Except.noConfusion h
      | some pr3 =>
        obtain ⟨b, rest3⟩ := pr3
        obtain ⟨a3, b3, hr2, hx5, hx6⟩ :=
          parse_hex_byte_inv rest2 b rest3 hp3
        cases hp4 : parse_hex_byte rest3 with
        | none =>
          simp only [color_body, hp1, hp2, hp3, hp4] at h
          by_cases hr3 : rest3 = []
          · subst hr3
            subst hr2
            subst hr1
            subst hds
            constructor
            · intro ch hch
              simp only [List.mem_cons, List.not_mem_nil, or_false] at hch
              rcases hch with rfl | rfl | rfl | rfl | rfl | rfl
              exacts [hx1, hx2, hx3, hx4, hx5, hx6]
            · left
              simp
          · rw [if_neg hr3] at h
            exact Except.noConfusion h
        | some pr4 =>
          obtain ⟨al, rest4⟩ := pr4
          obtain ⟨a4, b4, hr3, hx7, hx8⟩ :=
            parse_hex_byte_inv rest3 al rest4 hp4
          simp only [color_body, hp1, hp2, hp3, hp4] at h
          by_cases hr4 : rest4 = []
          · subst hr4
            subst hr3
            subst hr2
            subst hr1
            subst hds
            constructor
            · intro ch hch
              simp only [List.mem_cons, List.not_mem_nil, or_false] at hch
              rcases hch with rfl | rfl | rfl | rfl | rfl | rfl | rfl | rfl
              exacts [hx1, hx2, hx3, hx4, hx5, hx6, hx7, hx8]
            · right
              simp
          · rw [if_neg hr4] at h
            exact Except.noConfusion h

theorem color_body_error_msg (ds : List Char) (e : InvalidArgument)
    (h : color_body ds = .error e) : e = { msg := "Invalid color" } := by
  unfold color_body at h
  repeat' split at h
  all_goals first
    | (injection h with he; exact he.symm)
    | exact Except.noConfusion h

theorem color_from_str_error_msg (s : String) (e : InvalidArgument)
    (h : Color.from_str s = .error e) : e = { msg := "Invalid color" } := by
  rcases hsd : s.data with _ | ⟨ch, ds⟩
  · rw [from_str_nil s hsd] at h
    injection h with he
    exact he.symm
  · by_cases hch : ch = '#'
    · subst hch
      rw [from_str_eq_body s ds hsd] at h
      exact color_body_error_msg ds e h
    · rw [from_str_no_hash s ch ds hsd hch] at h
      injection h with he
      exact he.symm

/-- C7: the color parser accepts exactly `'#'` followed by 6 or 8 hex
digits (`color_shape`); every other input — missing `'#'`, any other
digit count, a non-hex character — yields the invalid-argument error; and
on acceptance the consecutive digit pairs map to red, green, blue, with
alpha absent on 6 digits and `some` of the last pair on 8. -/
theorem color_parse_spec (s : String) :
    ((∃ c, Color.from_str s = .ok c) ↔ color_shape s) ∧
    (¬ color_shape s →
       Color.from_str s = .error { msg := "Invalid color" }) ∧
    (∀ (h1 l1 h2 l2 h3 l3 : Char) (v1 v2 v3 : Nat),
       s.data = ['#', h1, l1, h2, l2, h3, l3] →
       parse_hex_byte [h1, l1] = some (v1, []) →
       parse_hex_byte [h2, l2] = some (v2, []) →
       parse_hex_byte [h3, l3] = some (v3, []) →
       Color.from_str s =
         .ok { red := v1, green := v2, blue := v3, alpha := none }) ∧
    (∀ (h1 l1 h2 l2 h3 l3 h4 l4 : Char) (v1 v2 v3 v4 : Nat),
       s.data = ['#', h1, l1, h2, l2, h3, l3, h4, l4] →
       parse_hex_byte [h1, l1] = some (v1, []) →
       parse_hex_byte [h2, l2] = some (v2, []) →
       parse_hex_byte [h3, l3] = some (v3, []) →
       parse_hex_byte [h4, l4] = some (v4, []) →
       Color.from_str s =
         .ok { red := v1, green := v2, blue := v3, alpha := some v4 }) := by
  have hiff : (∃ c, Color.from_str s = .ok c) ↔ color_shape s := by
    constructor
    · rintro ⟨c, hc⟩
      rcases hsd : s.data with _ | ⟨ch, ds⟩
      · rw [from_str_nil s hsd] at hc
        exact Except.noConfusion hc
      · by_cases hch : ch = '#'
        · subst hch
          rw [from_str_eq_body s ds hsd] at hc
          obtain ⟨hhex, hlen⟩ := color_body_ok_shape ds c hc
          exact ⟨ds, hsd, hhex, hlen⟩
        · rw [from_str_no_hash s ch ds hsd hch] at hc
          exact Except.noConfusion hc
    · rintro ⟨ds, hsd, hhex, hlen | hlen⟩
      · rcases ds with _ | ⟨a, _ | ⟨b, _ | ⟨c1, _ | ⟨d, _ | ⟨e, _ |
          ⟨f, tl⟩⟩⟩⟩⟩⟩ <;> simp at hlen
        subst hlen
        obtain ⟨va, hva⟩ := isHex_exists a (hhex a (by simp))
        obtain ⟨vb, hvb⟩ := isHex_exists b (hhex b (by simp))
        obtain ⟨vc, hvc⟩ := isHex_exists c1 (hhex c1 (by simp))
        obtain ⟨vd, hvd⟩ := isHex_exists d (hhex d (by simp))
        obtain ⟨ve, hve⟩ := isHex_exists e (hhex e (by simp))
        obtain ⟨vf, hvf⟩ := isHex_exists f (hhex f (by simp))
        have hc6 := color_body_six a b c1 d e f _ _ _
          (parse_hex_byte_some a b [] va vb hva hvb)
          (parse_hex_byte_some c1 d [] vc vd hvc hvd)
          (parse_hex_byte_some e f [] ve vf hve hvf)
        rw [from_str_eq_body s _ hsd, hc6]
        exact ⟨_, rfl⟩
      · rcases ds with _ | ⟨a, _ | ⟨b, _ | ⟨c1, _ | ⟨d, _ | ⟨e, _ | ⟨f,
          _ | ⟨g, _ | ⟨h8, tl⟩⟩⟩⟩⟩⟩⟩⟩ <;> simp at hlen
        subst hlen
        obtain ⟨va, hva⟩ := isHex_exists a (hhex a (by simp))
        obtain ⟨vb, hvb⟩ := isHex_exists b (hhex b (by simp))
        obtain ⟨vc, hvc⟩ := isHex_exists c1 (hhex c1 (by simp))
        obtain ⟨vd, hvd⟩ := isHex_exists d (hhex d (by simp))
        obtain ⟨ve, hve⟩ := isHex_exists e (hhex e (by simp))
        obtain ⟨vf, hvf⟩ := isHex_exists f (hhex f (by simp))
        obtain ⟨vg, hvg⟩ := isHex_exists g (hhex g (by simp))
        obtain ⟨vh, hvh⟩ := isHex_exists h8 (hhex h8 (by simp))
        have hc8 := color_body_eight a b c1 d e f g h8 _ _ _ _
          (parse_hex_byte_some a b [] va vb hva hvb)
          (parse_hex_byte_some c1 d [] vc vd hvc hvd)
          (parse_hex_byte_some e f [] ve vf hve hvf)
          (parse_hex_byte_some g h8 [] vg vh hvg hvh)
        rw [from_str_eq_body s _ hsd, hc8]
        exact ⟨_, rfl⟩
  refine ⟨hiff, ?_, ?_, ?_⟩
  · intro hns
    cases hfs : Color.from_str s with
    | ok c => exact absurd (hiff.mp ⟨c, hfs⟩) hns
    | error e => rw [← color_from_str_error_msg s e hfs]
  · intro h1 l1 h2 l2 h3 l3 v1 v2 v3 hsd p1 p2 p3
    rw [from_str_eq_body s _ hsd]
    exact color_body_six h1 l1 h2 l2 h3 l3 v1 v2 v3 p1 p2 p3
  · intro h1 l1 h2 l2 h3 l3 h4 l4 v1 v2 v3 v4 hsd p1 p2 p3 p4
    rw [from_str_eq_body s _ hsd]
    exact color_body_eight h1 l1 h2 l2 h3 l3 h4 l4 v1 v2 v3 v4 p1 p2 p3 p4

/-- Witness for C7: `"#010203"` parses without alpha, `"#01020304"` with
alpha `4`, and the five-digit `"#FFFFF"` is rejected. -/
theorem color_parse_spec_witness :
    Color.from_str "#010203" =
      .ok { red := 1, green := 2, blue := 3, alpha := none } ∧
    Color.from_str "#01020304" =
      .ok { red := 1, green := 2, blue := 3, alpha := some 4 } ∧
    Color.from_str "#FFFFF" = .error { msg := "Invalid color" } := by
  refine ⟨?_, ?_, ?_⟩
  · exact (color_parse_spec "#010203").2.2.1 '0' '1' '0' '2' '0' '3' 1 2 3
      (by decide) (by decide) (by decide) (by decide)
  · exact (color_parse_spec "#01020304").2.2.2 '0' '1' '0' '2' '0' '3'
      '0' '4' 1 2 3 4 (by decide) (by decide) (by decide) (by decide)
      (by decide)
  · refine (color_parse_spec "#FFFFF").2.1 ?_
    rintro ⟨ds, hds, _, hlen⟩
    rw [show ("#FFFFF" : String).data = ['#', 'F', 'F', 'F', 'F', 'F']
      from rfl] at hds
    injection hds with _ hds2
    rw [← hds2] at hlen
    exact absurd hlen (by decide)

end Rrd
